import Mathlib

/-
  Verification development for the web2epub pipeline (src/main.ts).
  The definitions below are a shallow embedding of the TypeScript source:
  JavaScript strings are modelled as Lean String / List Char, the file
  system and the network are modelled by explicit state passing, and
  exceptions by Except / Option.  Line references are to src/main.ts.
-/

namespace Web2Epub

/-- JavaScript `s.split(sep)` for a one-character separator, on character
lists.  Mirrors the behaviour used at line 440: `"".split("/") = [""]`,
`"/".split("/") = ["", ""]`. -/
def splitOnChar (sep : Char) : List Char → List (List Char)
  | [] => [[]]
  | c :: cs =>
    if c = sep then [] :: splitOnChar sep cs
    else
      match splitOnChar sep cs with
      | [] => [[c]]
      | h :: t => (c :: h) :: t

/-- JavaScript `pathname.split("/").reverse()[0]` (line 440): the final
segment of the path. -/
def lastSegment (l : List Char) : List Char :=
  ((splitOnChar '/' l).reverse).headD []

/-- JavaScript `replaceAll` for a one-character search string. -/
def replace1 (p : Char) (rep : List Char) : List Char → List Char
  | [] => []
  | c :: cs => if c = p then rep ++ replace1 p rep cs else c :: replace1 p rep cs

/-- JavaScript `replaceAll` for a two-character search string
(leftmost, non-overlapping), as used for the literal patterns
`"\\s"` and `"\\?"` at lines 441-444. -/
def replace2 (p1 p2 : Char) (rep : List Char) : List Char → List Char
  | [] => []
  | [c] => [c]
  | c1 :: c2 :: cs =>
    if c1 = p1 ∧ c2 = p2 then rep ++ replace2 p1 p2 rep cs
    else c1 :: replace2 p1 p2 rep (c2 :: cs)

/-- Sanitization chain of `extractDocId` (lines 441-444), in source order:
`.replaceAll("\\s", "_").replaceAll("/", "_").replaceAll("\\?", "").replaceAll(":", "")`.
Note that `"\\s"` and `"\\?"` are the literal two-character strings
backslash-s and backslash-question-mark, not regular expressions. -/
def sanitizeSegment (l : List Char) : List Char :=
  replace1 ':' [] (replace2 '\\' '?' [] (replace1 '/' ['_'] (replace2 '\\' 's' ['_'] l)))

/-- Embedding of `extractDocId` (lines 435-445), taking the already parsed
`pathname` of the URL (the `URL.parse` call itself is an external parser;
its output invariant is captured by `ValidPathname` below). -/
def extractDocId (pathname : String) : String :=
  String.mk (sanitizeSegment (lastSegment pathname.data))

/-- Hypothesis on the parsed pathname handed to `extractDocId`: no raw
whitespace character and no raw question mark.  The WHATWG parser backing
`URL.parse` (line 436) guarantees this for hierarchical (special-scheme)
URLs, whose path percent-encode set covers space and whose tab/newline
characters are stripped, and whose query always starts at a raw `?`.  It
does NOT hold for opaque paths (e.g. `data:` or `mailto:` URLs), which
are percent-encoded only with the C0-control set, so a raw space can
survive into the pathname. -/
def ValidPathname (p : String) : Prop :=
  ∀ c ∈ p.data, ¬ c.isWhitespace ∧ c ≠ '?'

/-- Modelled from `@std/path` `path.join` for two segments (lines 602-603):
empty segments are skipped and the remaining segments are joined with a
slash (dot-segment normalization is not modelled; no input here contains
dot segments). `join` of only empty segments yields `"."`. -/
def joinPath (a b : String) : String :=
  if a = "" then (if b = "" then "." else b)
  else if b = "" then a
  else a ++ "/" ++ b

/-- Workspace directory chosen by `createEpub` (line 603):
`path.join("workspaces", extractDocId(url))`. -/
def workDirFor (pathname : String) : String :=
  joinPath "workspaces" (extractDocId pathname)

/-- Behaviour of the environment for the direct `fetch(url)` call
(line 518): the promise rejects (network error), or resolves to a
response with a status code and a body that may be `null`
(`textResponse.body` at line 519; `null` for bodyless responses). -/
inductive NetOutcome where
  | err : NetOutcome
  | resp (status : Nat) (body : Option String) : NetOutcome
deriving DecidableEq, Repr

/-- Observable effects of one `fetchContent` invocation: the raw-content
artifact (`document-raw.html`) after the call (`none` when absent), the
number of direct network fetches performed, the number of automation
navigations performed, and whether the invocation raised. -/
structure FetchTrace where
  raw : Option String
  net : Nat
  auto : Nat
  threw : Bool
deriving DecidableEq, Repr

/-- Embedding of `callFirefox` (lines 621-629): if a downloader exists,
navigate and return the page source when truthy; in every other case
return the empty string.  `autoRes` is the environment's behaviour of
`firefoxDownloader.fetchUrl(url)`: an exception, or a result that may be
`undefined` (modelled `none`). -/
def callFirefox (downloader : Bool) (autoRes : Except Unit (Option String)) :
    Except Unit String :=
  if downloader then
    match autoRes with
    | Except.error e => Except.error e
    | Except.ok (some s) => if s = "" then Except.ok "" else Except.ok s
    | Except.ok none => Except.ok ""
  else Except.ok ""

/-- Embedding of `fetchContent` (lines 498-523).  `raw0` is the
raw-content artifact before the call (`fileExists` at line 505); in the
browser branch the body is always persisted (line 513), in the direct
branch the body is persisted exactly when it is non-null (lines 520-522)
and the HTTP status is never inspected. -/
def fetchContent (firefox downloader : Bool)
    (autoRes : Except Unit (Option String)) (netRes : NetOutcome)
    (raw0 : Option String) : FetchTrace :=
  match raw0 with
  | some b => { raw := some b, net := 0, auto := 0, threw := false }
  | none =>
    if firefox then
      match callFirefox downloader autoRes with
      | Except.error _ =>
          { raw := none, net := 0, auto := if downloader then 1 else 0, threw := true }
      | Except.ok body =>
          { raw := some body, net := 0, auto := if downloader then 1 else 0, threw := false }
    else
      match netRes with
      | NetOutcome.err => { raw := none, net := 1, auto := 0, threw := true }
      | NetOutcome.resp _ none => { raw := none, net := 1, auto := 0, threw := false }
      | NetOutcome.resp _ (some b) => { raw := some b, net := 1, auto := 0, threw := false }

/-- Embedding of the stdin batch loop (lines 684-692): non-empty lines
are processed sequentially by `createEpub`; `env line = true` means the
call completes, `false` means it raises.  Returns the lines on which
`createEpub` was invoked, and whether the loop was aborted by an
uncaught exception.  There is no `try`/`catch` in the source loop, so a
raising call ends the iteration. -/
def batchLoop (env : String → Bool) : List String → List String × Bool
  | [] => ([], false)
  | l :: ls =>
    if l = "" then batchLoop env ls
    else if env l then (l :: (batchLoop env ls).1, (batchLoop env ls).2)
    else ([l], true)

/-- Outcome of one batch run: URLs on which `createEpub` was invoked,
how often `firefoxDownloader.destructor()` ran, and whether module
evaluation was aborted by an uncaught exception. -/
structure BatchResult where
  attempted : List String
  teardowns : Nat
  aborted : Bool
deriving DecidableEq, Repr

/-- Embedding of the batch entry point plus cleanup (lines 684-697): the
loop runs, then - only if module evaluation was not aborted - the
top-level cleanup calls `firefoxDownloader.destructor()` when a
downloader was constructed (lines 695-697). -/
def runBatch (env : String → Bool) (hasDownloader : Bool) (lines : List String) :
    BatchResult :=
  match batchLoop env lines with
  | (att, true) => { attempted := att, teardowns := 0, aborted := true }
  | (att, false) =>
      { attempted := att
        teardowns := if hasDownloader then 1 else 0
        aborted := false }

/-- Result of `cmd.output()` for the pandoc invocation (line 492):
exit code and captured output streams. -/
structure CmdOutput where
  code : Nat
  stdout : String
  stderr : String
deriving DecidableEq, Repr

/-- Embedding of `generateEpub` (lines 471-496).  `runPandoc` is the
environment's behaviour of `cmd.output()`: a rejection (e.g. the pandoc
binary cannot be spawned) propagates, while a completed process - with
any exit code, zero or not - only has its streams logged before the
function returns `true` (lines 492-495; the destructured `code` is never
inspected). -/
def generateEpub (runPandoc : Except Unit CmdOutput) : Except Unit Bool :=
  match runPandoc with
  | Except.error e => Except.error e
  | Except.ok _ => Except.ok true

/-- JavaScript field values as they occur in the extraction record:
a deleted or missing property (`undef`), `null`, a number, or a string. -/
inductive JSVal where
  | undef : JSVal
  | null : JSVal
  | num (n : Int) : JSVal
  | str (s : String) : JSVal
deriving DecidableEq, Repr

/-- Embedding of the `ParseResult` record (lines 389-400) produced by the
Readability collaborator.  The collaborator emits every key, with `null`
for absent values (e.g. a missing byline); `undef` arises only from the
`delete` statements in `generateMetadata`. -/
structure ParseResult where
  title : JSVal
  content : JSVal
  textContent : JSVal
  length : JSVal
  excerpt : JSVal
  byline : JSVal
  dir : JSVal
  siteName : JSVal
  lang : JSVal
  publishedTime : JSVal
deriving DecidableEq, Repr

/-- JavaScript truthiness for the values occurring here. -/
def jsTruthy : JSVal → Bool
  | JSVal.str s => !(s == "")
  | JSVal.num n => !(n == 0)
  | _ => false

/-- JavaScript string coercion for the values occurring here. -/
def jsStr : JSVal → String
  | JSVal.str s => s
  | JSVal.null => "null"
  | JSVal.undef => "undefined"
  | JSVal.num n => toString n

/-- Embedding of `generateContent` (lines 560-585): optional excerpt as a
heading, then the extracted body when truthy, then the provenance line
with the source URL (note the literal space inside the `href` value, as
in the source). -/
def generateContent (url : String) (r : ParseResult) : String :=
  (if jsTruthy r.excerpt then "<h3>" ++ jsStr r.excerpt ++ "</h3>" else "")
    ++ (if jsTruthy r.content then jsStr r.content else "")
    ++ "<p>Source: <a href=\"" ++ url ++ " \">" ++ url ++ "</a></p>"

/-- Metadata object built by `generateMetadata` (lines 540-545), in
insertion order; the `author` key is unconditionally bound to
`parseResult?.byline`. -/
def generateMetadataMapping (r : ParseResult) : List (String × JSVal) :=
  [("author", r.byline), ("title", r.title), ("date", r.publishedTime), ("lang", r.lang)]

/-- Scalar rendering modelled from `@std/yaml` `stringify` (js-yaml):
`null` is written as the word `null`, numbers as decimal literals, plain
strings unquoted (quoting of strings needing escapes is not modelled -
no theorem below depends on it), and `undefined` is not representable
(`stringify` raises, modelled as `none`). -/
def yamlScalar : JSVal → Option String
  | JSVal.undef => none
  | JSVal.null => some "null"
  | JSVal.num n => some (toString n)
  | JSVal.str s => some s

/-- Block-mapping serialization modelled from `@std/yaml` `stringify`
(line 548): one `key: value` line per entry, in insertion order. -/
def yamlStringify : List (String × JSVal) → Option String
  | [] => some ""
  | kv :: rest =>
    Option.bind (yamlScalar kv.2) (fun sv =>
      Option.bind (yamlStringify rest) (fun srest =>
        some (kv.1 ++ ": " ++ sv ++ "\n" ++ srest)))

/-- Key-value view of the whole extraction record as serialized for the
raw metadata dump (line 555), in insertion order; properties removed by
`delete` (modelled as `undef`) are no longer own-keys of the object and
are omitted. -/
def rawMetadataMapping (r : ParseResult) : List (String × JSVal) :=
  ([("title", r.title), ("content", r.content), ("textContent", r.textContent),
    ("length", r.length), ("excerpt", r.excerpt), ("byline", r.byline),
    ("dir", r.dir), ("siteName", r.siteName), ("lang", r.lang),
    ("publishedTime", r.publishedTime)]).filter (fun kv => !(kv.2 == JSVal.undef))

/-- Embedding of `generateMetadata` (lines 539-558): serialize the
converter-facing metadata object, then `delete parseResult?.content` and
`delete parseResult?.textContent` (lines 552-553), then serialize the
mutated record as the raw metadata dump.  Returns the two serialized
artifacts and the extraction record as it stands after the call. -/
def generateMetadata (r : ParseResult) : Option String × Option String × ParseResult :=
  (yamlStringify (generateMetadataMapping r),
   yamlStringify (rawMetadataMapping
     { r with content := JSVal.undef, textContent := JSVal.undef }),
   { r with content := JSVal.undef, textContent := JSVal.undef })

/-- Artifacts produced by the post-fetch stage of `createEpub` for one
URL, plus whether the run reported completion (the final log at
line 618). -/
structure StageOutcome where
  extractedHtml : Option String
  metadataYaml : Option String
  rawMetadataYaml : Option String
  epubWritten : Bool
  completed : Bool
deriving DecidableEq, Repr

/-- Embedding of the extraction-dependent tail of `createEpub`
(lines 612-618): when `parseDocument` returned `null` every downstream
stage is skipped and the run still reports completion; otherwise the
content, metadata and e-book stages all run. -/
def createEpubStage (url : String) (result : Option ParseResult) : StageOutcome :=
  match result with
  | none =>
      { extractedHtml := none, metadataYaml := none, rawMetadataYaml := none,
        epubWritten := false, completed := true }
  | some r =>
      { extractedHtml := some (generateContent url r)
        metadataYaml := (generateMetadata r).1
        rawMetadataYaml := (generateMetadata r).2.1
        epubWritten := true
        completed := true }

/-- Concrete extraction record whose byline is absent (Readability emits
`byline: null` when no author is found). -/
def sampleRecordNoByline : ParseResult :=
  { title := JSVal.str "T", content := JSVal.str "<p>B</p>",
    textContent := JSVal.str "B", length := JSVal.num 1,
    excerpt := JSVal.str "E", byline := JSVal.null,
    dir := JSVal.str "ltr", siteName := JSVal.str "S",
    lang := JSVal.str "en", publishedTime := JSVal.str "2024-01-01" }

end Web2Epub

namespace Web2Epub

theorem splitOnChar_ne_nil (sep : Char) (l : List Char) : splitOnChar sep l ≠ [] := by
  cases l with
  | nil => simp [splitOnChar]
  | cons c cs =>
    by_cases hc : c = sep
    · simp [splitOnChar, hc]
    · simp only [splitOnChar, hc, if_false]
      cases splitOnChar sep cs <;> simp

theorem mem_of_mem_splitOnChar (sep : Char) (l : List Char) :
    ∀ x ∈ splitOnChar sep l, ∀ c ∈ x, c ∈ l ∧ c ≠ sep := by
  induction l with
  | nil =>
    intro x hx c hc
    simp only [splitOnChar, List.mem_singleton] at hx
    subst hx
    exact absurd hc (List.not_mem_nil c)
  | cons a as ih =>
    intro x hx c hc
    by_cases ha : a = sep
    · rw [show splitOnChar sep (a :: as) = [] :: splitOnChar sep as from by
        simp [splitOnChar, ha]] at hx
      rcases List.mem_cons.mp hx with hx | hx
      · subst hx; exact absurd hc (List.not_mem_nil c)
      · obtain ⟨h1, h2⟩ := ih x hx c hc
        exact ⟨List.mem_cons_of_mem _ h1, h2⟩
    · cases hr : splitOnChar sep as with
      | nil => exact absurd hr (splitOnChar_ne_nil sep as)
      | cons h t =>
        rw [show splitOnChar sep (a :: as) = (a :: h) :: t from by
          simp [splitOnChar, ha, hr]] at hx
        rcases List.mem_cons.mp hx with hx | hx
        · subst hx
          rcases List.mem_cons.mp hc with hc | hc
          · exact ⟨by rw [hc]; exact List.mem_cons_self a as, by rw [hc]; exact ha⟩
          · obtain ⟨h1, h2⟩ := ih h (by rw [hr]; exact List.mem_cons_self h t) c hc
            exact ⟨List.mem_cons_of_mem _ h1, h2⟩
        · obtain ⟨h1, h2⟩ := ih x (by rw [hr]; exact List.mem_cons_of_mem _ hx) c hc
          exact ⟨List.mem_cons_of_mem _ h1, h2⟩

theorem mem_of_mem_lastSegment (l : List Char) :
    ∀ c ∈ lastSegment l, c ∈ l ∧ c ≠ '/' := by
  intro c hc
  unfold lastSegment at hc
  cases hr : (splitOnChar '/' l).reverse with
  | nil =>
    exact absurd (List.reverse_eq_nil_iff.mp hr) (splitOnChar_ne_nil '/' l)
  | cons h t =>
    rw [hr] at hc
    simp only [List.headD_cons] at hc
    have hmem : h ∈ splitOnChar '/' l := by
      have : h ∈ (splitOnChar '/' l).reverse := by rw [hr]; exact List.mem_cons_self h t
      exact List.mem_reverse.mp this
    exact mem_of_mem_splitOnChar '/' l h hmem c hc

theorem mem_of_mem_replace1 (p : Char) (rep l : List Char) :
    ∀ c ∈ replace1 p rep l, c ∈ l ∨ c ∈ rep := by
  induction l with
  | nil => intro c hc; simp [replace1] at hc
  | cons a as ih =>
    intro c hc
    by_cases ha : a = p
    · simp only [replace1, ha, if_true, List.mem_append] at hc
      rcases hc with hc | hc
      · exact Or.inr hc
      · rcases ih c hc with h | h
        · exact Or.inl (List.mem_cons_of_mem _ h)
        · exact Or.inr h
    · simp only [replace1, ha, if_false, List.mem_cons] at hc
      rcases hc with hc | hc
      · exact Or.inl (by simp [hc])
      · rcases ih c hc with h | h
        · exact Or.inl (List.mem_cons_of_mem _ h)
        · exact Or.inr h

theorem not_mem_replace1_nil (p : Char) (l : List Char) :
    ∀ c ∈ replace1 p [] l, c ≠ p := by
  induction l with
  | nil => intro c hc; simp [replace1] at hc
  | cons a as ih =>
    intro c hc
    by_cases ha : a = p
    · simp only [replace1, ha, if_true, List.nil_append] at hc
      exact ih c hc
    · simp only [replace1, ha, if_false, List.mem_cons] at hc
      rcases hc with hc | hc
      · subst hc; exact ha
      · exact ih c hc

theorem mem_of_mem_replace2 (p1 p2 : Char) (rep l : List Char) :
    ∀ c ∈ replace2 p1 p2 rep l, c ∈ l ∨ c ∈ rep := by
  induction l using replace2.induct p1 p2 rep with
  | case1 => intro c hc; simp [replace2] at hc
  | case2 a => intro c hc; simp only [replace2] at hc; exact Or.inl hc
  | case3 c1 c2 cs hif ih =>
    intro c hc
    simp only [replace2, if_pos hif, List.mem_append] at hc
    rcases hc with hc | hc
    · exact Or.inr hc
    · rcases ih c hc with h | h
      · exact Or.inl (List.mem_cons_of_mem _ (List.mem_cons_of_mem _ h))
      · exact Or.inr h
  | case4 c1 c2 cs hif ih =>
    intro c hc
    simp only [replace2, if_neg hif, List.mem_cons] at hc
    rcases hc with hc | hc
    · exact Or.inl (by simp [hc])
    · rcases ih c hc with h | h
      · exact Or.inl (by simpa using Or.inr (List.mem_cons.mp h))
      · exact Or.inr h

theorem splitOnChar_append_sep (sep : Char) (l : List Char) :
    splitOnChar sep (l ++ [sep]) = splitOnChar sep l ++ [[]] := by
  induction l with
  | nil => simp [splitOnChar]
  | cons a as ih =>
    by_cases ha : a = sep
    · have h1 : splitOnChar sep ((a :: as) ++ [sep]) = [] :: splitOnChar sep (as ++ [sep]) := by
        simp [splitOnChar, ha]
      have h2 : splitOnChar sep (a :: as) = [] :: splitOnChar sep as := by
        simp [splitOnChar, ha]
      rw [h1, h2, ih]
      rfl
    · cases hr : splitOnChar sep as with
      | nil => exact absurd hr (splitOnChar_ne_nil sep as)
      | cons h t =>
        have hmid : splitOnChar sep (as ++ [sep]) = h :: (t ++ [[]]) := by
          rw [ih, hr]; rfl
        have h1 : splitOnChar sep ((a :: as) ++ [sep]) = (a :: h) :: (t ++ [[]]) := by
          simp [splitOnChar, ha, hmid]
        have h2 : splitOnChar sep (a :: as) = (a :: h) :: t := by
          simp [splitOnChar, ha, hr]
        rw [h1, h2]
        rfl

theorem lastSegment_append_sep (l : List Char) : lastSegment (l ++ ['/']) = [] := by
  unfold lastSegment
  rw [splitOnChar_append_sep]
  simp

theorem batchLoop_cons (env : String → Bool) (l : String) (ls : List String) :
    batchLoop env (l :: ls)
      = if l = "" then batchLoop env ls
        else if env l then (l :: (batchLoop env ls).1, (batchLoop env ls).2)
        else ([l], true) := rfl

theorem batchLoop_all_ok (env : String → Bool) (lines : List String)
    (h : ∀ l ∈ lines, env l = true) :
    batchLoop env lines = (lines.filter (fun l => !(l == "")), false) := by
  induction lines with
  | nil => rfl
  | cons l ls ih =>
    have hrec := ih (fun x hx => h x (List.mem_cons_of_mem _ hx))
    rw [batchLoop_cons]
    by_cases hl : l = ""
    · rw [if_pos hl, hrec]
      subst hl
      simp
    · rw [if_neg hl, if_pos (h l (List.mem_cons_self l ls)), hrec]
      simp [List.filter_cons, hl]

theorem batchLoop_abort (env : String → Bool) (l : String) (pre post : List String)
    (hpre : ∀ x ∈ pre, env x = true) (hne : l ≠ "") (hfail : env l = false) :
    batchLoop env (pre ++ l :: post)
      = (pre.filter (fun x => !(x == "")) ++ [l], true) := by
  induction pre with
  | nil =>
    rw [List.nil_append, batchLoop_cons, if_neg hne, hfail]
    rfl
  | cons p ps ih =>
    have hrec := ih (fun x hx => hpre x (List.mem_cons_of_mem _ hx))
    rw [List.cons_append, batchLoop_cons]
    by_cases hp : p = ""
    · rw [if_pos hp, hrec]
      subst hp
      simp
    · rw [if_neg hp, if_pos (hpre p (List.mem_cons_self p ps)), hrec]
      simp [List.filter_cons, hp]

/-- C1 (amended): if the raw-content artifact already exists,
`fetchContent` returns immediately with no network or automation
activity; a single invocation performs at most one unit of
network/automation work; and whenever the first invocation against an
empty workspace persists the artifact (always in browser mode, and in
direct mode exactly when the response body is non-null), a second
invocation performs no network or automation work and leaves the
artifact's bytes unchanged. -/
theorem C1_fetch_idempotence_amended (firefox downloader : Bool)
    (autoRes : Except Unit (Option String)) (netRes : NetOutcome) (b0 b : String)
    (h : (fetchContent firefox downloader autoRes netRes none).raw = some b) :
    fetchContent firefox downloader autoRes netRes (some b0)
      = { raw := some b0, net := 0, auto := 0, threw := false }
    ∧ fetchContent firefox downloader autoRes netRes
        (fetchContent firefox downloader autoRes netRes none).raw
      = { raw := some b, net := 0, auto := 0, threw := false }
    ∧ (fetchContent firefox downloader autoRes netRes none).net
        + (fetchContent firefox downloader autoRes netRes none).auto ≤ 1 := by
  refine ⟨rfl, by rw [h]; rfl, ?_⟩
  cases firefox with
  | true =>
    cases downloader with
    | true =>
      cases hcf : callFirefox true autoRes with
      | error e => simp [fetchContent, hcf]
      | ok s => simp [fetchContent, hcf]
    | false =>
      cases hcf : callFirefox false autoRes with
      | error e => simp [fetchContent, hcf]
      | ok s => simp [fetchContent, hcf]
  | false =>
    cases netRes with
    | err => simp [fetchContent]
    | resp st body => cases body <;> simp [fetchContent]

/-- C1 (counterexample): with a direct-strategy response whose body is
null (for example a 204 response), two consecutive `fetchContent`
invocations against the same initially empty workspace each perform a
network fetch: network work happens twice, not at most once. -/
theorem C1_fetch_idempotence_cex :
    (fetchContent false false (Except.ok none) (NetOutcome.resp 204 none) none).net
      + (fetchContent false false (Except.ok none) (NetOutcome.resp 204 none)
          ((fetchContent false false (Except.ok none) (NetOutcome.resp 204 none) none).raw)).net
      = 2 := rfl

/-- C1 (witness): the amended theorem evaluated at the direct strategy
with a 200 response carrying a body. -/
theorem C1_fetch_idempotence_witness :
    fetchContent false false (Except.ok none) (NetOutcome.resp 200 (some "page")) (some "x")
      = { raw := some "x", net := 0, auto := 0, threw := false }
    ∧ fetchContent false false (Except.ok none) (NetOutcome.resp 200 (some "page"))
        ((fetchContent false false (Except.ok none) (NetOutcome.resp 200 (some "page")) none).raw)
      = { raw := some "page", net := 0, auto := 0, threw := false }
    ∧ (fetchContent false false (Except.ok none) (NetOutcome.resp 200 (some "page")) none).net
        + (fetchContent false false (Except.ok none) (NetOutcome.resp 200 (some "page")) none).auto
          ≤ 1 :=
  C1_fetch_idempotence_amended false false (Except.ok none)
    (NetOutcome.resp 200 (some "page")) "x" "page" rfl

/-- C2 (counterexample): a two-URL batch with a downloader where the
first URL raises: the second URL is never processed and the teardown
runs zero times, not once. -/
theorem C2_batch_cex :
    runBatch (fun x => !(x == "a")) true ["a", "b"]
      = { attempted := ["a"], teardowns := 0, aborted := true } := rfl

/-- C2 (amended): the batch loop has no error isolation: if processing of
URL k raises, URLs k+1..N are not processed and the end-of-batch
teardown does not run at all; only when every processed URL completes
normally are all non-empty URLs processed and - when a downloader
exists - the teardown performed exactly once. -/
theorem C2_batch_amended (env : String → Bool) (hasDownloader : Bool)
    (lines pre post : List String) (l : String)
    (hl : lines = pre ++ l :: post) (hpre : ∀ x ∈ pre, env x = true)
    (hne : l ≠ "") (hfail : env l = false) :
    runBatch env hasDownloader lines
      = { attempted := pre.filter (fun x => !(x == "")) ++ [l],
          teardowns := 0, aborted := true }
    ∧ ∀ lines2 : List String, (∀ x ∈ lines2, env x = true) →
        runBatch env hasDownloader lines2
          = { attempted := lines2.filter (fun x => !(x == "")),
              teardowns := if hasDownloader then 1 else 0, aborted := false } := by
  constructor
  · subst hl
    unfold runBatch
    rw [batchLoop_abort env l pre post hpre hne hfail]
  · intro lines2 h2
    unfold runBatch
    rw [batchLoop_all_ok env lines2 h2]

/-- C2 (witness): the amended theorem evaluated on a concrete batch where
the second URL raises. -/
theorem C2_batch_witness :
    runBatch (fun x => !(x == "b")) true ["a", "b", "c"]
      = { attempted := ["a", "b"], teardowns := 0, aborted := true } := by
  have h := (C2_batch_amended (fun x => !(x == "b")) true ["a", "b", "c"] ["a"] ["c"] "b"
    rfl (by decide) (by decide) (by decide)).1
  have e : List.filter (fun x => !(x == "")) ["a"] ++ ["b"] = ["a", "b"] := by decide
  rw [e] at h
  exact h

/-- C3 (counterexample): the pathname of the accepted opaque-path URL
`data:text/plain,hello world` keeps its raw space, its final path
segment is non-empty, and - because the whitespace `replaceAll` at
line 441 matches the literal two characters backslash-s, not whitespace -
the space survives into the document identity, which therefore does
contain a whitespace character. -/
theorem C3_docid_safe_cex :
    lastSegment ("text/plain,hello world" : String).data ≠ []
    ∧ ¬ (∀ c ∈ (extractDocId "text/plain,hello world").data,
          c ≠ '/' ∧ c ≠ ':' ∧ c ≠ '?' ∧ ¬ c.isWhitespace) := by decide

/-- C3 (amended): for every parsed URL pathname containing no raw
whitespace and no raw question mark (all hierarchical special-scheme
URLs qualify; opaque paths such as `data:` or `mailto:` URLs need not,
and their raw spaces reach the identity) whose final path segment is
non-empty, the document identity returned by `extractDocId` contains no
slash, no colon, no question mark and no whitespace character. -/
theorem C3_docid_safe (p : String) (hp : ValidPathname p)
    (_hne : lastSegment p.data ≠ []) :
    ∀ c ∈ (extractDocId p).data, c ≠ '/' ∧ c ≠ ':' ∧ c ≠ '?' ∧ ¬ c.isWhitespace := by
  intro c hc
  have hc4 : c ∈ replace1 ':' []
      (replace2 '\\' '?' []
        (replace1 '/' ['_'] (replace2 '\\' 's' ['_'] (lastSegment p.data)))) := hc
  have hcolon : c ≠ ':' := not_mem_replace1_nil ':' _ c hc4
  have hc3 : c ∈ replace2 '\\' '?' []
      (replace1 '/' ['_'] (replace2 '\\' 's' ['_'] (lastSegment p.data))) := by
    rcases mem_of_mem_replace1 ':' [] _ c hc4 with h | h
    · exact h
    · exact absurd h (List.not_mem_nil c)
  have hc2 : c ∈ replace1 '/' ['_'] (replace2 '\\' 's' ['_'] (lastSegment p.data)) := by
    rcases mem_of_mem_replace2 '\\' '?' [] _ c hc3 with h | h
    · exact h
    · exact absurd h (List.not_mem_nil c)
  have hc1 : c ∈ replace2 '\\' 's' ['_'] (lastSegment p.data) ∨ c = '_' := by
    rcases mem_of_mem_replace1 '/' ['_'] _ c hc2 with h | h
    · exact Or.inl h
    · exact Or.inr (List.mem_singleton.mp h)
  have hc0 : c ∈ lastSegment p.data ∨ c = '_' := by
    rcases hc1 with h | h
    · rcases mem_of_mem_replace2 '\\' 's' ['_'] _ c h with h2 | h2
      · exact Or.inl h2
      · exact Or.inr (List.mem_singleton.mp h2)
    · exact Or.inr h
  rcases hc0 with h | h
  · obtain ⟨hmem, hslash⟩ := mem_of_mem_lastSegment p.data c h
    obtain ⟨hws, hq⟩ := hp c hmem
    exact ⟨hslash, hcolon, hq, hws⟩
  · subst h
    exact ⟨by decide, hcolon, by decide, by decide⟩

/-- C3 (witness): the amended safety theorem evaluated at the
hierarchical pathname `/articles/foo-bar`. -/
theorem C3_docid_safe_witness :
    ValidPathname "/articles/foo-bar"
    ∧ lastSegment "/articles/foo-bar".data ≠ []
    ∧ ∀ c ∈ (extractDocId "/articles/foo-bar").data,
        c ≠ '/' ∧ c ≠ ':' ∧ c ≠ '?' ∧ ¬ c.isWhitespace := by
  have h1 : ValidPathname "/articles/foo-bar" := by
    show ∀ c ∈ ("/articles/foo-bar" : String).data, ¬ c.isWhitespace ∧ c ≠ '?'
    decide
  have h2 : lastSegment "/articles/foo-bar".data ≠ [] := by decide
  exact ⟨h1, h2, C3_docid_safe "/articles/foo-bar" h1 h2⟩

/-- C4 (counterexample): pandoc exiting with code 1 is reported as
success by `generateEpub` (it returns `true`), not surfaced as a
conversion error. -/
theorem C4_conversion_error_cex :
    generateEpub (Except.ok { code := 1, stdout := "", stderr := "pandoc: failed" })
      = Except.ok true := rfl

/-- C4 (amended): `generateEpub` never inspects the converter's exit
code - every completed invocation, whatever the exit code, is reported
as success - and only a failure to run the converter at all propagates
as an error. -/
theorem C4_conversion_error_amended (o : CmdOutput) :
    generateEpub (Except.ok o) = Except.ok true
    ∧ generateEpub (Except.error ()) = Except.error () := ⟨rfl, rfl⟩

/-- C5 (counterexample): for a concrete extraction record with a null
byline, the metadata serialized by `generateMetadata` contains the line
`author: null` - the author key is written with a null value, not
omitted. -/
theorem C5_author_omission_cex :
    (generateMetadata sampleRecordNoByline).1
      = some "author: null\ntitle: T\ndate: 2024-01-01\nlang: en\n"
    ∧ ("author", JSVal.null) ∈ generateMetadataMapping sampleRecordNoByline :=
  ⟨rfl, by decide⟩

/-- C5 (amended): whenever the byline of the extraction record is null
(the collaborator's absence signal), `generateMetadata` still writes the
author key: the metadata mapping contains `author` bound to null, and
the serialized artifact, when produced, starts with the line
`author: null`. -/
theorem C5_author_omission_amended (r : ParseResult) (h : r.byline = JSVal.null) :
    ("author", JSVal.null) ∈ generateMetadataMapping r
    ∧ ((generateMetadata r).1 = none
       ∨ ∃ tail, (generateMetadata r).1 = some ("author: null\n" ++ tail)) := by
  have h1 : generateMetadataMapping r
      = ("author", JSVal.null)
        :: [("title", r.title), ("date", r.publishedTime), ("lang", r.lang)] := by
    unfold generateMetadataMapping
    rw [h]
  have hs : ("author" ++ ": " ++ "null" ++ "\n" : String) = "author: null\n" := by decide
  have hg : (generateMetadata r).1
      = Option.bind (yamlStringify
          [("title", r.title), ("date", r.publishedTime), ("lang", r.lang)])
        (fun srest => some ("author: null\n" ++ srest)) := by
    show yamlStringify (generateMetadataMapping r) = _
    rw [h1]
    show Option.bind (yamlStringify
        [("title", r.title), ("date", r.publishedTime), ("lang", r.lang)])
      (fun srest => some ("author" ++ ": " ++ "null" ++ "\n" ++ srest)) = _
    simp only [hs]
  constructor
  · rw [h1]
    exact List.mem_cons_self _ _
  · rw [hg]
    cases hrest : yamlStringify
        [("title", r.title), ("date", r.publishedTime), ("lang", r.lang)] with
    | none =>
      left
      rfl
    | some t =>
      right
      exact ⟨t, rfl⟩

/-- C5 (witness): the amended theorem evaluated at the concrete record
with a null byline. -/
theorem C5_author_omission_witness :
    ("author", JSVal.null) ∈ generateMetadataMapping sampleRecordNoByline
    ∧ ((generateMetadata sampleRecordNoByline).1 = none
       ∨ ∃ tail, (generateMetadata sampleRecordNoByline).1
           = some ("author: null\n" ++ tail)) :=
  C5_author_omission_amended sampleRecordNoByline rfl

/-- C6 (confirmed): when extraction returns null, the pipeline writes no
extracted-content artifact, no metadata artifact and no raw metadata
dump, generates no e-book, and still reports completion for that URL. -/
theorem C6_null_extraction_skips (url : String) :
    createEpubStage url none
      = { extractedHtml := none, metadataYaml := none, rawMetadataYaml := none,
          epubWritten := false, completed := true } := rfl

/-- C7 (counterexample): browser-profile fetching with no downloader (no
session and no resolved profile) against an empty workspace:
`fetchContent` persists an empty raw-content artifact and returns
successfully - no error is raised and no direct network fetch is
attempted (here the network would even fail, and the outcome is
unaffected). -/
theorem C7_no_profile_cex :
    fetchContent true false (Except.ok none) NetOutcome.err none
      = { raw := some "", net := 0, auto := 0, threw := false } := rfl

/-- C7 (amended): when browser-profile fetching is selected and no
downloader exists, `callFirefox` returns the empty string and
`fetchContent` persists an empty raw-content artifact and reports
success; it neither raises an error nor falls back to a direct network
fetch. -/
theorem C7_no_profile_amended (autoRes : Except Unit (Option String))
    (netRes : NetOutcome) :
    callFirefox false autoRes = Except.ok ""
    ∧ fetchContent true false autoRes netRes none
      = { raw := some "", net := 0, auto := 0, threw := false } := ⟨rfl, rfl⟩

/-- C8 (counterexample): a direct-strategy fetch receiving a 404 response
with a body persists that body as the raw-content artifact and reports
success - no error is surfaced. -/
theorem C8_direct_error_cex :
    fetchContent false false (Except.ok none) (NetOutcome.resp 404 (some "Not Found")) none
      = { raw := some "Not Found", net := 1, auto := 0, threw := false } := rfl

/-- C8 (amended): in the direct strategy a network error (rejected fetch)
propagates and nothing is persisted, but a non-success HTTP response is
not detected: any response body, whatever the status code, is persisted
as the raw-content artifact and the stage reports success. -/
theorem C8_direct_error_amended (downloader : Bool)
    (autoRes : Except Unit (Option String)) (status : Nat) (b : String) :
    fetchContent false downloader autoRes NetOutcome.err none
      = { raw := none, net := 1, auto := 0, threw := true }
    ∧ fetchContent false downloader autoRes (NetOutcome.resp status (some b)) none
      = { raw := some b, net := 1, auto := 0, threw := false } := ⟨rfl, rfl⟩

/-- C9 (counterexample): `generateMetadata` mutates the extraction record
it is given: for a concrete record the content field holds a string
before the call and is deleted after it, so the record after the call
differs from the record before. -/
theorem C9_record_mutation_cex :
    (generateMetadata sampleRecordNoByline).2.2.content = JSVal.undef
    ∧ sampleRecordNoByline.content = JSVal.str "<p>B</p>"
    ∧ (generateMetadata sampleRecordNoByline).2.2 ≠ sampleRecordNoByline :=
  ⟨rfl, rfl, by decide⟩

/-- C9 (amended): downstream of extraction only `generateMetadata`
modifies the record, and it modifies exactly the content and textContent
fields, deleting both before the raw metadata dump; every other field is
left unchanged. -/
theorem C9_record_mutation_amended (r : ParseResult) :
    (generateMetadata r).2.2
      = { r with content := JSVal.undef, textContent := JSVal.undef } := rfl

/-- C10 (confirmed): for every parseable URL whose path ends in a slash
(including a bare domain URL, whose pathname is a single slash),
`extractDocId` returns the empty string and `createEpub`'s workspace
directory `path.join("workspaces", "")` is the shared workspace root
itself. -/
theorem C10_trailing_slash (p : String) (h : ∃ q, p.data = q ++ ['/']) :
    extractDocId p = "" ∧ workDirFor p = "workspaces" := by
  obtain ⟨q, hq⟩ := h
  have h1 : lastSegment p.data = [] := by rw [hq]; exact lastSegment_append_sep q
  have h2 : extractDocId p = "" := by
    unfold extractDocId sanitizeSegment
    rw [h1]
    rfl
  refine ⟨h2, ?_⟩
  unfold workDirFor
  rw [h2]
  rfl

/-- C10 (witness): the trailing-slash theorem evaluated at the pathname
`/articles/`. -/
theorem C10_trailing_slash_witness :
    extractDocId "/articles/" = "" ∧ workDirFor "/articles/" = "workspaces" :=
  C10_trailing_slash "/articles/" ⟨"/articles".data, by decide⟩

end Web2Epub
